import Mathlib

/-!
The ByzCoin EVM client (bevm_client.go)

A shallow embedding of the client side of the ByzCoin EVM bridge: the contract
descriptor and account records, the operations `NewBEvm`, `Deploy`,
`Transaction`, `Call`, `CreditAccount`, `GetAccountBalance`, and the helpers
`getEvmDb` and `invoke`.

The Go code talks to three external collaborators (the go-ethereum codecs and
virtual machine, the ByzCoin ledger client, the darc signer).  Their answers are
the fields of an environment `Env`; every call to one of them is recorded as an
`Event`, so that a run of an operation is a trace of events, the final value of
the memory the operation holds pointers to (the account, the contract and the
variable behind the result argument of `Call`), and the outcome (a value, a
returned error, or a run-time panic).
-/

namespace BEvm

/-! ## Data model -/

/-- Byte slices: each element stands for one byte. -/
abbrev Bytes := List Nat

/-- Go error values, identified by their message. -/
abbrev Err := String

/-- WeiPerEther is the number of Wei in a single Ether (1e18). -/
def WeiPerEther : Nat := 10 ^ 18

/-- The 20-byte address type of go-ethereum (common.Address). -/
abbrev EthAddress := { bs : Bytes // bs.length = 20 }

/-- Bytes of an address: the 20 bytes of the array, as a slice. -/
def EthAddress.Bytes (a : EthAddress) : Bytes := a.val

/-- An ABI description (abi.ABI), identified by the JSON text it was read from. -/
structure ABI where
  json : String
deriving DecidableEq

/-- Values handed to and returned by the ABI codec (the Go interface values). -/
inductive AbiArg where
  | uint (n : Nat)
  | int (i : Int)
  | bool (b : Bool)
  | bytes (b : Bytes)
  | str (s : String)
  | address (a : EthAddress)
deriving DecidableEq

/-- EvmContract is the abstraction for an Ethereum contract. -/
structure EvmContract where
  Abi : ABI
  Bytecode : Bytes
  Address : EthAddress
  name : String
deriving DecidableEq

/-- An ECDSA private key, by its secret scalar. -/
structure ECDSAKey where
  d : Nat
deriving DecidableEq

/-- EvmAccount is the abstraction for an Ethereum account; Nonce is a uint64. -/
structure EvmAccount where
  Address : EthAddress
  PrivateKey : ECDSAKey
  Nonce : Nat
deriving DecidableEq

/-- The payload of a go-ethereum transaction (types.Transaction) before signing. -/
structure EthTx where
  AccountNonce : Nat
  Price : Int
  GasLimit : Nat
  Recipient : Option EthAddress
  Amount : Int
  Payload : Bytes
deriving DecidableEq

/-- A signed go-ethereum transaction: the payload and the signature bytes. -/
structure SignedTx where
  tx : EthTx
  signature : Bytes
deriving DecidableEq

/-- Constructor types.NewContractCreation: a transaction without recipient. -/
def NewContractCreation (nonce : Nat) (amount : Int) (gasLimit : Nat) (gasPrice : Int)
    (data : Bytes) : EthTx :=
  { AccountNonce := nonce, Price := gasPrice, GasLimit := gasLimit, Recipient := none,
    Amount := amount, Payload := data }

/-- Constructor types.NewTransaction: a transaction sent to the address given. -/
def NewTransaction (nonce : Nat) (dest : EthAddress) (amount : Int) (gasLimit : Nat)
    (gasPrice : Int) (data : Bytes) : EthTx :=
  { AccountNonce := nonce, Price := gasPrice, GasLimit := gasLimit, Recipient := some dest,
    Amount := amount, Payload := data }

/-- Go conversion int64(u) of a uint64: the two's-complement reading of the 64 bits. -/
def int64 (u : Nat) : Int :=
  if u % 2 ^ 64 < 2 ^ 63 then ((u % 2 ^ 64 : Nat) : Int) else ((u % 2 ^ 64 : Nat) : Int) - 2 ^ 64

/-- Allocation big.NewInt(x): the big integer with the value of the int64 x. -/
def bigNewInt (x : Int) : Int := x

/-- Little-endian base-256 digits of a natural number, most significant digit non-zero. -/
def bytesLE : Nat → Nat → List Nat
  | 0, _ => []
  | fuel + 1, n => if n = 0 then [] else (n % 256) :: bytesLE fuel (n / 256)

/-- Method Bytes of big.Int: the absolute value as a big-endian byte slice. -/
def bigIntBytes (x : Int) : Bytes := (bytesLE x.natAbs x.natAbs).reverse

/-- Method SetBytes of big.Int: the big-endian unsigned reading of a byte slice. -/
def bigIntSetBytes (b : Bytes) : Int := ((b.foldl (fun acc d => acc * 256 + d) 0 : Nat) : Int)

/-- A ByzCoin instance identifier (32 bytes). -/
abbrev InstanceID := Bytes

/-- Function byzcoin.NewInstanceID: copy the input into a zeroed 32-byte array. -/
def NewInstanceID (input : Bytes) : InstanceID :=
  input.take 32 ++ List.replicate (32 - input.length) 0

/-- One named argument of a ByzCoin instruction. -/
structure Argument where
  Name : String
  Value : Bytes
deriving DecidableEq

/-- The argument list of a ByzCoin instruction. -/
abbrev Arguments := List Argument

/-- The Spawn body of a ByzCoin instruction. -/
structure Spawn where
  ContractID : String
  Args : Arguments
deriving DecidableEq

/-- The Invoke body of a ByzCoin instruction. -/
structure Invoke where
  ContractID : String
  Command : String
  Args : Arguments
deriving DecidableEq

/-- A ByzCoin instruction; the fields the client leaves out are none or empty. -/
structure Instruction where
  InstanceID : InstanceID
  Spawn : Option Spawn
  Invoke : Option Invoke
  SignerCounter : List Nat
  SignerIdentities : List String
  Signatures : List Bytes
deriving DecidableEq

/-- A ByzCoin client transaction: a list of instructions. -/
structure ClientTransaction where
  Instructions : List Instruction
deriving DecidableEq

/-- A darc signer: its identity string and its secret. -/
structure Signer where
  Identity : String
  secret : Bytes
deriving DecidableEq

/-- A darc, by the base identifier GetBaseID returns. -/
structure Darc where
  BaseID : Bytes
deriving DecidableEq

/-- The ByzCoin client handle: the identifier of the skipchain it is bound to. -/
structure ByzcoinClient where
  ID : Bytes
deriving DecidableEq

/-- A ByzCoin proof as received from the ledger, by its encoding. -/
structure Proof where
  raw : Bytes
deriving DecidableEq

/-- The response of GetProof. -/
structure GetProofResponse where
  Proof : Proof
deriving DecidableEq

/-- The value stored in the ledger instance: the root hash of the EVM state trie. -/
structure State where
  RootHash : Bytes
  KeyList : List String
deriving DecidableEq

/-- The read-through key/value store over the ledger instance (ClientByzDatabase). -/
structure ClientByzDatabase where
  instanceID : InstanceID
  client : ByzcoinClient
deriving DecidableEq

/-- The state database of go-ethereum (state.StateDB): a root hash over a store. -/
structure StateDB where
  root : Bytes
  db : ClientByzDatabase
deriving DecidableEq

/-- Client is the abstraction for the ByzCoin EVM client. -/
structure Client where
  bcClient : ByzcoinClient
  signer : Signer
  instanceID : InstanceID
deriving DecidableEq

/-! ## Runs: events, outcomes and the records behind the pointers -/

/-- One call to an external collaborator, with the arguments it received. -/
inductive Event where
  | abiPack (abi : ABI) (method : String) (args : List AbiArg)
  | abiUnpack (abi : ABI) (method : String) (data : Bytes)
  | signTx (tx : EthTx) (key : ECDSAKey)
  | marshalJSON (stx : SignedTx)
  | getSignerCounters (identity : String)
  | fillSignersAndSignWith (ctx : ClientTransaction) (signer : Signer)
  | addTransactionAndWait (ctx : ClientTransaction) (wait : Nat)
  | getProof (key : Bytes)
  | proofVerify (proof : Proof) (scID : Bytes)
  | proofKeyValue (proof : Proof)
  | protobufDecode (value : Bytes)
  | newClientByzDatabase (instID : InstanceID)
  | stateNew (root : Bytes) (db : ClientByzDatabase)
  | getTrieNode (instID : InstanceID) (nodeKey : Bytes)
  | evmCall (db : StateDB) (caller : EthAddress) (dest : EthAddress) (input : Bytes) (gas : Nat)
      (value : Int)
  | getBalance (db : StateDB) (address : EthAddress)
deriving DecidableEq

/-- How a Go function ends: with its values, with a returned error, or in a panic. -/
inductive Res (α : Type) where
  | ok (a : α)
  | err (e : Err)
  | panic (msg : String)
deriving DecidableEq

/-- The memory the bridge operations receive pointers to: the account record, the
contract record, and a variable of the caller, apart from the two records, that the
result argument of Call may point to. -/
structure Heap where
  account : EvmAccount
  contract : EvmContract
  callerVar : Option AbiArg
deriving DecidableEq

/-- What the result argument of Call points to: nothing (a nil interface), a variable of
the caller apart from the two records, or a field of the account or of the contract. -/
inductive ResultPtr where
  | null
  | caller
  | accountNonce
  | accountAddress
  | contractAddress
  | contractBytecode
deriving DecidableEq

/-- A finished run: the events in order, the records at the end, the outcome. -/
structure Run (α : Type) where
  trace : List Event
  heap : Heap
  res : Res α

/-- A Go function body: from the records at entry to a finished run. -/
def Prog (α : Type) : Type := Heap → Run α

/-- Sequencing: the second part runs only when the first ended with a value. -/
def Prog.bind {α β : Type} (m : Prog α) (f : α → Prog β) : Prog β := fun h =>
  match m h with
  | ⟨t, h1, .ok a⟩ =>
    match f a h1 with
    | ⟨t2, h2, r⟩ => ⟨t ++ t2, h2, r⟩
  | ⟨t, h1, .err e⟩ => ⟨t, h1, .err e⟩
  | ⟨t, h1, .panic s⟩ => ⟨t, h1, .panic s⟩

instance : Monad Prog where
  pure a := fun h => ⟨[], h, .ok a⟩
  bind := Prog.bind

/-- A call to a collaborator whose error, if any, the caller returns at once. -/
def call {α : Type} (ev : Event) (r : Except Err α) : Prog α := fun h =>
  match r with
  | .ok a => ⟨[ev], h, .ok a⟩
  | .error e => ⟨[ev], h, .err e⟩

/-- A call that returns only an error value (nil on success). -/
def callErr (ev : Event) (r : Option Err) : Prog Unit := fun h =>
  match r with
  | none => ⟨[ev], h, .ok ()⟩
  | some e => ⟨[ev], h, .err e⟩

/-- Modelled from the spec: the lookup method of ClientByzDatabase is declared in another
file of the package; the adapter resolves a trie-node lookup by deriving the ledger-side
key from the node hash and querying the ledger for it, under the instance the adapter
was built for. -/
def ClientByzDatabase.Get (db : ClientByzDatabase) (nodeKey : Bytes) : Event :=
  .getTrieNode db.instanceID nodeKey

/-- A call into the state engine of go-ethereum over the adapter db: the engine has no
handle on the ledger but db, and the nodes it looks up go through the lookup of db. -/
def callTrie {α : Type} (ev : Event) (db : ClientByzDatabase) (nodes : List Bytes)
    (r : Except Err α) : Prog α := fun h =>
  match r with
  | .ok a => ⟨ev :: nodes.map db.Get, h, .ok a⟩
  | .error e => ⟨ev :: nodes.map db.Get, h, .err e⟩

/-- Index expression xs[0] of Go: a run-time panic when the slice is empty. -/
def index0 {α : Type} (xs : List α) : Prog α := fun h =>
  match xs with
  | [] => ⟨[], h, .panic "index out of range [0] with length 0"⟩
  | x :: _ => ⟨[], h, .ok x⟩

/-- Read through the account pointer. -/
def getAccount : Prog EvmAccount := fun h => ⟨[], h, .ok h.account⟩

/-- Read through the contract pointer. -/
def getContract : Prog EvmContract := fun h => ⟨[], h, .ok h.contract⟩

/-- Assignment contract.Address = a. -/
def setContractAddress (a : EthAddress) : Prog Unit := fun h =>
  ⟨[], { h with contract := { h.contract with Address := a } }, .ok ()⟩

/-- Statement account.Nonce++ on a uint64. -/
def incrNonce : Prog Unit := fun h =>
  ⟨[], { h with account := { h.account with Nonce := (h.account.Nonce + 1) % 2 ^ 64 } }, .ok ()⟩

/-- The write of abi.Unpack through the result pointer.  A nil result is written to the
local copy only; a value whose type does not fit the field pointed to is an error of the
codec and nothing is written. -/
def storeResult (result : ResultPtr) (v : AbiArg) : Prog Unit := fun h =>
  match result, v with
  | .null, _ => ⟨[], h, .ok ()⟩
  | .caller, v => ⟨[], { h with callerVar := some v }, .ok ()⟩
  | .accountNonce, .uint n =>
    ⟨[], { h with account := { h.account with Nonce := n % 2 ^ 64 } }, .ok ()⟩
  | .accountAddress, .address a =>
    ⟨[], { h with account := { h.account with Address := a } }, .ok ()⟩
  | .contractAddress, .address a =>
    ⟨[], { h with contract := { h.contract with Address := a } }, .ok ()⟩
  | .contractBytecode, .bytes b =>
    ⟨[], { h with contract := { h.contract with Bytecode := b } }, .ok ()⟩
  | _, _ => ⟨[], h, .err "abi: cannot unmarshal"⟩

/-! ## The external collaborators -/

/-- Answers of the collaborators the client calls. -/
structure Env where
  /-- The contract identifier ContractBEvmID, declared elsewhere in the package. -/
  ContractBEvmID : String
  /-- ABI codec: abi.ABI.Pack. -/
  abiPack : ABI → String → List AbiArg → Except Err Bytes
  /-- ABI codec: the value abi.ABI.Unpack decodes, before it is stored. -/
  abiUnpack : ABI → String → Bytes → Except Err AbiArg
  /-- Signature of types.SignTx under the Homestead signer. -/
  signTx : EthTx → ECDSAKey → Except Err Bytes
  /-- JSON encoding of a signed transaction. -/
  marshalJSON : SignedTx → Except Err Bytes
  /-- Contract address derivation crypto.CreateAddress. -/
  createAddress : EthAddress → Nat → EthAddress
  /-- Ledger: the replay counters of the identity given. -/
  getSignerCounters : ByzcoinClient → String → Except Err (List Nat)
  /-- Darc signer: one signature for each instruction of the transaction. -/
  signWith : ClientTransaction → Signer → Except Err (List Bytes)
  /-- Ledger: submit and wait for inclusion; only the error is kept. -/
  addTransactionAndWait : ByzcoinClient → ClientTransaction → Nat → Option Err
  /-- Instruction.DeriveID. -/
  deriveID : Instruction → String → InstanceID
  /-- Ledger: the proof for a key. -/
  getProof : ByzcoinClient → Bytes → Except Err GetProofResponse
  /-- Proof.Verify against a skipchain identifier. -/
  proofVerify : Proof → Bytes → Option Err
  /-- Proof.KeyValue: key, value, contract identifier and darc identifier. -/
  proofKeyValue : Proof → Except Err (Bytes × Bytes × String × Bytes)
  /-- Decoding protobuf.Decode into a State. -/
  protobufDecode : Bytes → Except Err State
  /-- Error value of NewClientByzDatabase, declared elsewhere in the package. -/
  newClientByzDatabase : InstanceID → ByzcoinClient → Option Err
  /-- Constructor state.New: the trie nodes it reads and its error. -/
  stateNew : Bytes → ClientByzDatabase → List Bytes × Option Err
  /-- Method vm.EVM.Call: the trie nodes it reads, the returned bytes and the gas left. -/
  evmCall : StateDB → EthAddress → EthAddress → Bytes → Nat → Int →
    List Bytes × Except Err (Bytes × Nat)
  /-- Method StateDB.GetBalance: the trie nodes it reads and the balance. -/
  getBalance : StateDB → EthAddress → List Bytes × Int

/-! ## The operations of bevm_client.go -/

/-- Method packMethod of EvmContract: the ABI encoding of a method call. -/
def EvmContract.packMethod (env : Env) (contract : EvmContract) (method : String)
    (args : List AbiArg) : Prog Bytes :=
  call (.abiPack contract.Abi method args) (env.abiPack contract.Abi method args)

/-- Method packConstructor of EvmContract: the constructor is the method with no name. -/
def EvmContract.packConstructor (env : Env) (contract : EvmContract) (args : List AbiArg) :
    Prog Bytes :=
  contract.packMethod env "" args

/-- Method unpackResult of EvmContract: abi.Unpack decodes the returned bytes and stores
the value through the result pointer. -/
def EvmContract.unpackResult (env : Env) (contract : EvmContract) (result : ResultPtr)
    (method : String) (resultBytes : Bytes) : Prog Unit := do
  let v ← call (.abiUnpack contract.Abi method resultBytes)
    (env.abiUnpack contract.Abi method resultBytes)
  storeResult result v

/-- SignAndMarshalTx signs an Ethereum transaction and returns it in byte format. -/
def EvmAccount.SignAndMarshalTx (env : Env) (account : EvmAccount) (tx : EthTx) : Prog Bytes := do
  let sig ← call (.signTx tx account.PrivateKey) (env.signTx tx account.PrivateKey)
  let signedTx : SignedTx := { tx := tx, signature := sig }
  let signedBuffer ← call (.marshalJSON signedTx) (env.marshalJSON signedTx)
  pure signedBuffer

/-- Method FillSignersAndSignWith of byzcoin.ClientTransaction, for one signer: every
instruction gets the signer's identity and its signature; nothing else is written. -/
def ClientTransaction.FillSignersAndSignWith (env : Env) (ctx : ClientTransaction)
    (signer : Signer) : Prog ClientTransaction :=
  call (.fillSignersAndSignWith ctx signer)
    (match env.signWith ctx signer with
     | .error e => .error e
     | .ok sigs => .ok
        { Instructions := ctx.Instructions.enum.map fun p =>
            { p.2 with SignerIdentities := [signer.Identity],
                       Signatures := [sigs.getD p.1 []] } })

/-- NewBEvm creates a new ByzCoin EVM instance. -/
def NewBEvm (env : Env) (bcClient : ByzcoinClient) (signer : Signer) (gDarc : Darc) :
    Prog InstanceID := do
  let counters ← call (.getSignerCounters signer.Identity)
    (env.getSignerCounters bcClient signer.Identity)
  let c0 ← index0 counters
  let ctx : ClientTransaction :=
    { Instructions := [{
        InstanceID := NewInstanceID gDarc.BaseID,
        SignerCounter := [(c0 + 1) % 2 ^ 64],
        Spawn := some { ContractID := env.ContractBEvmID, Args := [] },
        Invoke := none, SignerIdentities := [], Signatures := [] }] }
  let ctx ← ctx.FillSignersAndSignWith env signer
  callErr (.addTransactionAndWait ctx 5) (env.addTransactionAndWait bcClient ctx 5)
  let ins ← index0 ctx.Instructions
  pure (env.deriveID ins "")

/-- NewClient creates a new ByzCoin EVM client, connected to the given instance. -/
def NewClient (bcClient : ByzcoinClient) (signer : Signer) (instanceID : InstanceID) :
    Res Client :=
  .ok { bcClient := bcClient, signer := signer, instanceID := instanceID }

/-- Invoke a method on a ByzCoin EVM instance. -/
def Client.invoke (env : Env) (client : Client) (command : String) (args : Arguments) :
    Prog Unit := do
  let counters ← call (.getSignerCounters client.signer.Identity)
    (env.getSignerCounters client.bcClient client.signer.Identity)
  let c0 ← index0 counters
  let ctx : ClientTransaction :=
    { Instructions := [{
        InstanceID := client.instanceID,
        SignerCounter := [(c0 + 1) % 2 ^ 64],
        Invoke := some { ContractID := env.ContractBEvmID, Command := command, Args := args },
        Spawn := none, SignerIdentities := [], Signatures := [] }] }
  let ctx ← ctx.FillSignersAndSignWith env client.signer
  callErr (.addTransactionAndWait ctx 5) (env.addTransactionAndWait client.bcClient ctx 5)

/-- Deploy deploys a new Ethereum contract on the EVM. -/
def Client.Deploy (env : Env) (client : Client) (gasLimit : Nat) (gasPrice : Int) (amount : Nat)
    (args : List AbiArg) : Prog Unit := do
  let packedArgs ← (← getContract).packConstructor env args
  let callData := (← getContract).Bytecode ++ packedArgs
  let tx := NewContractCreation (← getAccount).Nonce (bigNewInt (int64 amount)) gasLimit gasPrice
    callData
  let signedTxBuffer ← (← getAccount).SignAndMarshalTx env tx
  client.invoke env "transaction" [{ Name := "tx", Value := signedTxBuffer }]
  setContractAddress (env.createAddress (← getAccount).Address (← getAccount).Nonce)
  incrNonce
  pure ()

/-- Transaction performs a new transaction (method call with state change) on the EVM. -/
def Client.Transaction (env : Env) (client : Client) (gasLimit : Nat) (gasPrice : Int)
    (amount : Nat) (method : String) (args : List AbiArg) : Prog Unit := do
  let callData ← (← getContract).packMethod env method args
  let tx := NewTransaction (← getAccount).Nonce (← getContract).Address (bigNewInt (int64 amount))
    gasLimit gasPrice callData
  let signedTxBuffer ← (← getAccount).SignAndMarshalTx env tx
  client.invoke env "transaction" [{ Name := "tx", Value := signedTxBuffer }]
  incrNonce
  pure ()

/-- Modelled from the spec: NewClientByzDatabase is declared in another file of the
package; it builds the read-through adapter that resolves trie-node lookups by querying
the ledger instance, and may return an error. -/
def NewClientByzDatabase (env : Env) (instID : InstanceID) (bcClient : ByzcoinClient) :
    Prog ClientByzDatabase := fun h =>
  match env.newClientByzDatabase instID bcClient with
  | none => ⟨[.newClientByzDatabase instID], h, .ok { instanceID := instID, client := bcClient }⟩
  | some e => ⟨[.newClientByzDatabase instID], h, .err e⟩

/-- Retrieve a read-only EVM state database from ByzCoin. -/
def getEvmDb (env : Env) (bcClient : ByzcoinClient) (instID : InstanceID) : Prog StateDB := do
  let proofResponse ← call (.getProof instID) (env.getProof bcClient instID)
  callErr (.proofVerify proofResponse.Proof bcClient.ID)
    (env.proofVerify proofResponse.Proof bcClient.ID)
  let kv ← call (.proofKeyValue proofResponse.Proof) (env.proofKeyValue proofResponse.Proof)
  let value := kv.2.1
  let bs ← call (.protobufDecode value) (env.protobufDecode value)
  let byzDb ← NewClientByzDatabase env instID bcClient
  callTrie (.stateNew bs.RootHash byzDb) byzDb (env.stateNew bs.RootHash byzDb).1
    (match (env.stateNew bs.RootHash byzDb).2 with
     | none => .ok { root := bs.RootHash, db := byzDb }
     | some e => .error e)

/-- Call performs a new call (view method call, without state change) on the EVM. -/
def Client.Call (env : Env) (client : Client) (result : ResultPtr) (method : String)
    (args : List AbiArg) : Prog Unit := do
  let callData ← (← getContract).packMethod env method args
  let stateDb ← getEvmDb env client.bcClient client.instanceID
  let caller := (← getAccount).Address
  let dest := (← getContract).Address
  let out := env.evmCall stateDb caller dest callData WeiPerEther (bigNewInt 0)
  let ret ← callTrie (.evmCall stateDb caller dest callData WeiPerEther (bigNewInt 0))
    stateDb.db out.1 out.2
  (← getContract).unpackResult env result method ret.1

/-- CreditAccount credits the given Ethereum address with the given amount. -/
def Client.CreditAccount (env : Env) (client : Client) (amount : Int) (address : EthAddress) :
    Prog Unit := do
  client.invoke env "credit"
    [{ Name := "address", Value := address.Bytes }, { Name := "amount", Value := bigIntBytes amount }]
  pure ()

/-- GetAccountBalance returns the current balance of a Ethereum address. -/
def Client.GetAccountBalance (env : Env) (client : Client) (address : EthAddress) : Prog Int := do
  let stateDb ← getEvmDb env client.bcClient client.instanceID
  let out := env.getBalance stateDb address
  callTrie (.getBalance stateDb address) stateDb.db out.1 (.ok out.2)

/-! ## Observations on runs -/

/-- Calls that reach the ledger: counter reads, submissions, proofs and trie nodes. -/
def Event.isLedgerCall : Event → Bool
  | .getSignerCounters _ => true
  | .addTransactionAndWait _ _ => true
  | .getProof _ => true
  | .getTrieNode _ _ => true
  | _ => false

/-- Submissions of a transaction to the ledger. -/
def Event.isSubmission : Event → Bool
  | .addTransactionAndWait _ _ => true
  | _ => false

/-- Reads of a signer's replay counter. -/
def Event.isCounterRead : Event → Bool
  | .getSignerCounters _ => true
  | _ => false

/-- A body that never writes through the two pointers, whose events all satisfy P and
whose value, when it returns one, satisfies Q. -/
def ReadOnly {α : Type} (P : Event → Prop) (Q : α → Prop) (m : Prog α) : Prop :=
  ∀ h, (m h).heap = h ∧ (∀ ev ∈ (m h).trace, P ev) ∧ (∀ a, (m h).res = .ok a → Q a)

/-- Events of a read of the state of instance i: nothing reaches the ledger except the
proof request for i and reads of trie nodes of i. -/
def SnapshotEvent (i : InstanceID) (ev : Event) : Prop :=
  ev.isLedgerCall = true → ev = .getProof i ∨ ∃ k, ev = .getTrieNode i k

/-- A body whose events all satisfy P and whose memory at the end, whatever the outcome,
is related by Post to the memory at entry. -/
def Touches {α : Type} (P : Event → Prop) (Post : Heap → Heap → Prop) (m : Prog α) : Prop :=
  ∀ h, (∀ ev ∈ (m h).trace, P ev) ∧ Post h (m h).heap

/-- What Call may change: the Nonce only when result points to it, the Address of the
contract only when result points to it, and neither record when result is nil or points
to a variable of the caller. -/
def callPost (result : ResultPtr) (h h2 : Heap) : Prop :=
  (result ≠ .accountNonce → h2.account.Nonce = h.account.Nonce) ∧
  (result ≠ .contractAddress → h2.contract.Address = h.contract.Address) ∧
  (result = .null ∨ result = .caller → h2.account = h.account ∧ h2.contract = h.contract)

/-- A body whose writes through the pointers happen only on the way to success: when it
returns a value the records are related by Post, otherwise they are as at entry. -/
def Commits {α : Type} (Post : Heap → Heap → Prop) (m : Prog α) : Prop :=
  ∀ h, (∀ a, (m h).res = .ok a → Post h (m h).heap) ∧
    ((∀ a, (m h).res ≠ .ok a) → (m h).heap = h)

/-- The records after a successful Deploy. -/
def deployPost (env : Env) (h h2 : Heap) : Prop :=
  h2 = { h with
         account := { h.account with Nonce := (h.account.Nonce + 1) % 2 ^ 64 },
         contract := { h.contract with
           Address := env.createAddress h.account.Address h.account.Nonce } }

/-- The records after a successful Transaction. -/
def transactionPost (h h2 : Heap) : Prop :=
  h2 = { h with account := { h.account with Nonce := (h.account.Nonce + 1) % 2 ^ 64 } }

/-- The transaction of invoke for a first counter c, with the signer fields given. -/
def invokeCtx (env : Env) (client : Client) (command : String) (args : Arguments) (c : Nat)
    (ids : List String) (sigs : List Bytes) : ClientTransaction :=
  { Instructions := [{
      InstanceID := client.instanceID,
      SignerCounter := [(c + 1) % 2 ^ 64],
      Invoke := some { ContractID := env.ContractBEvmID, Command := command, Args := args },
      Spawn := none, SignerIdentities := ids, Signatures := sigs }] }

/-! ## Sample inputs -/

/-- The zero address. -/
def addr0 : EthAddress := ⟨List.replicate 20 0, rfl⟩

/-- A sample address derivation: the nonce in eight bytes, then twelve zero bytes. -/
def sampleCreateAddress (_a : EthAddress) (n : Nat) : EthAddress :=
  ⟨[n % 256, n / 256 % 256, n / 65536 % 256, n / 16777216 % 256, n / 4294967296 % 256,
    n / 1099511627776 % 256, n / 281474976710656 % 256, n / 72057594037927936 % 256,
    0, 0, 0, 0, 0, 0, 0, 0, 0, 0, 0, 0], rfl⟩

/-- A sample client: skipchain 1, one signer, the instance with identifier 4. -/
def cl0 : Client :=
  { bcClient := { ID := [1] }, signer := { Identity := "ed25519:aa", secret := [] },
    instanceID := NewInstanceID [4] }

/-- A sample account with nonce 0 and a sample Storage contract, not yet deployed. -/
def h0 : Heap :=
  { account := { Address := addr0, PrivateKey := { d := 1 }, Nonce := 0 },
    contract := { Abi := { json := "[]" }, Bytecode := [96, 128], Address := addr0,
                  name := "Storage" },
    callerVar := none }

/-- The sample account with the largest 64-bit nonce. -/
def hMaxNonce : Heap :=
  { h0 with account := { h0.account with Nonce := 18446744073709551615 } }

/-- A world in which every collaborator succeeds; the signer's counter is 0 and the proof
holds the value of the sample instance. -/
def okEnv : Env where
  ContractBEvmID := "bevm"
  abiPack := fun _ _ _ => .ok [1, 2]
  abiUnpack := fun _ _ _ => .ok (.uint 42)
  signTx := fun _ _ => .ok [7]
  marshalJSON := fun _ => .ok [9]
  createAddress := sampleCreateAddress
  getSignerCounters := fun _ _ => .ok [0]
  signWith := fun _ _ => .ok [[5]]
  addTransactionAndWait := fun _ _ _ => none
  deriveID := fun _ _ => NewInstanceID [4]
  getProof := fun _ _ => .ok { Proof := { raw := [] } }
  proofVerify := fun _ _ => none
  proofKeyValue := fun _ => .ok (NewInstanceID [4], [2], "bevm", [])
  protobufDecode := fun _ => .ok { RootHash := [3], KeyList := [] }
  newClientByzDatabase := fun _ _ => none
  stateNew := fun _ _ => ([], none)
  evmCall := fun _ _ _ _ _ _ => ([[8]], .ok ([0, 42], 0))
  getBalance := fun _ _ => ([], 0)

/-- The ledger answers the counter query with an empty list of counters. -/
def emptyCountersEnv : Env := { okEnv with getSignerCounters := fun _ _ => .ok [] }

/-- The darc signer fails to sign. -/
def signFailEnv : Env := { okEnv with signWith := fun _ _ => .error "signing failed" }

/-- The ledger rejects the submitted transaction. -/
def rejectEnv : Env :=
  { okEnv with addTransactionAndWait := fun _ _ _ => some "transaction rejected" }

/-- A world whose CreateAddress gives every nonce the same address. -/
def constAddressEnv : Env := { okEnv with createAddress := fun _ _ => addr0 }

/-- The proof does not verify against the skipchain. -/
def verifyFailEnv : Env :=
  { okEnv with proofVerify := fun _ _ => some "proof verification failed" }

/-- The proof verifies, but its leaf belongs to instance 9: a proof that the requested
instance is absent. -/
def absentEnv : Env :=
  { okEnv with proofKeyValue := fun _ => .ok (NewInstanceID [9], [2], "other", []) }

/-! ## Lemmas on sequencing -/

theorem prog_bind_apply {α β : Type} (m : Prog α) (f : α → Prog β) (h : Heap) :
    (m >>= f) h = Prog.bind m f h := rfl

theorem prog_pure_apply {α : Type} (a : α) (h : Heap) :
    (pure a : Prog α) h = ⟨[], h, .ok a⟩ := rfl

theorem readOnly_bind {α β : Type} {P : Event → Prop} {Q : α → Prop} {R : β → Prop}
    {m : Prog α} {f : α → Prog β} (hm : ReadOnly P Q m)
    (hf : ∀ a, Q a → ReadOnly P R (f a)) : ReadOnly P R (m >>= f) := by
  intro h
  obtain ⟨h1, h2, h3⟩ := hm h
  rw [prog_bind_apply]
  unfold Prog.bind
  rcases hmh : m h with ⟨t, hp, r⟩
  rw [hmh] at h1 h2 h3
  simp only at h1 h2 h3
  subst h1
  cases r with
  | ok a =>
    obtain ⟨g1, g2, g3⟩ := hf a (h3 a rfl) hp
    refine ⟨g1, ?_, g3⟩
    intro ev hev
    rcases List.mem_append.mp hev with hl | hr
    · exact h2 ev hl
    · exact g2 ev hr
  | err e => exact ⟨rfl, h2, fun a ha => by cases ha⟩
  | panic s => exact ⟨rfl, h2, fun a ha => by cases ha⟩

theorem readOnly_weaken {α : Type} {P : Event → Prop} {Q R : α → Prop} {m : Prog α}
    (hm : ReadOnly P Q m) (hqr : ∀ a, Q a → R a) : ReadOnly P R m := fun h =>
  ⟨(hm h).1, (hm h).2.1, fun a ha => hqr a ((hm h).2.2 a ha)⟩

theorem readOnly_pure {α : Type} (P : Event → Prop) (Q : α → Prop) (a : α) (hq : Q a) :
    ReadOnly P Q (pure a : Prog α) := by
  intro h
  refine ⟨rfl, ?_, ?_⟩
  · intro ev hev; cases hev
  · intro b hb
    rw [prog_pure_apply] at hb
    cases hb
    exact hq

theorem readOnly_call {α : Type} (P : Event → Prop) (ev : Event) (r : Except Err α)
    (hp : P ev) : ReadOnly P (fun _ => True) (call ev r) := by
  intro h
  cases r <;> refine ⟨rfl, ?_, fun _ _ => trivial⟩ <;> intro e he <;>
    simp only [call, List.mem_singleton] at he <;> exact he ▸ hp

theorem readOnly_callErr (P : Event → Prop) (ev : Event) (r : Option Err) (hp : P ev) :
    ReadOnly P (fun _ => True) (callErr ev r) := by
  intro h
  cases r <;> refine ⟨rfl, ?_, fun _ _ => trivial⟩ <;> intro e he <;>
    simp only [callErr, List.mem_singleton] at he <;> exact he ▸ hp

theorem readOnly_callTrie {α : Type} (P : Event → Prop) (ev : Event) (db : ClientByzDatabase)
    (ns : List Bytes) (r : Except Err α) (hp : P ev)
    (hn : ∀ k, P (.getTrieNode db.instanceID k)) :
    ReadOnly P (fun _ => True) (callTrie ev db ns r) := by
  intro h
  cases r <;> refine ⟨rfl, ?_, fun _ _ => trivial⟩ <;> intro e he <;>
    simp only [callTrie, ClientByzDatabase.Get, List.mem_cons, List.mem_map] at he <;>
    rcases he with he | ⟨k, _, hk⟩
  · exact he ▸ hp
  · exact hk ▸ hn k
  · exact he ▸ hp
  · exact hk ▸ hn k

theorem readOnly_getAccount (P : Event → Prop) : ReadOnly P (fun _ => True) getAccount := by
  intro h
  simp [getAccount]

theorem readOnly_getContract (P : Event → Prop) : ReadOnly P (fun _ => True) getContract := by
  intro h
  simp [getContract]

theorem readOnly_index0 {α : Type} (P : Event → Prop) (xs : List α) :
    ReadOnly P (fun _ => True) (index0 xs) := by
  intro h
  cases xs <;> simp [index0]

/-! ## Read-only operations -/

theorem readOnly_packMethod (P : Event → Prop) (env : Env) (c : EvmContract) (m : String)
    (args : List AbiArg) (hp : ∀ a s l, P (.abiPack a s l)) :
    ReadOnly P (fun _ => True) (c.packMethod env m args) :=
  readOnly_call P _ _ (hp _ _ _)

theorem readOnly_newClientByzDatabase (P : Event → Prop) (env : Env) (i : InstanceID)
    (c : ByzcoinClient) (hp : P (.newClientByzDatabase i)) :
    ReadOnly P (fun db => db.instanceID = i) (NewClientByzDatabase env i c) := by
  intro h
  unfold NewClientByzDatabase
  cases env.newClientByzDatabase i c with
  | none =>
    refine ⟨rfl, ?_, ?_⟩
    · intro ev hev
      simp only [List.mem_singleton] at hev
      exact hev ▸ hp
    · intro a ha
      simp only [Res.ok.injEq] at ha
      rw [← ha]
  | some e =>
    refine ⟨rfl, ?_, ?_⟩
    · intro ev hev
      simp only [List.mem_singleton] at hev
      exact hev ▸ hp
    · intro a ha
      cases ha

theorem readOnly_getEvmDb (env : Env) (c : ByzcoinClient) (i : InstanceID) :
    ReadOnly (SnapshotEvent i) (fun db => db.db.instanceID = i) (getEvmDb env c i) := by
  unfold getEvmDb
  refine readOnly_bind (readOnly_call _ _ _ (fun _ => Or.inl rfl)) fun pr _ => ?_
  refine readOnly_bind (readOnly_callErr _ _ _ (fun hl => by cases hl)) fun _ _ => ?_
  refine readOnly_bind (readOnly_call _ _ _ (fun hl => by cases hl)) fun kv _ => ?_
  refine readOnly_bind (readOnly_call _ _ _ (fun hl => by cases hl)) fun bs _ => ?_
  refine readOnly_bind (readOnly_newClientByzDatabase _ env i c (fun hl => by cases hl))
    fun db hdb => ?_
  intro h
  obtain ⟨h1, h2, _⟩ := readOnly_callTrie (SnapshotEvent i) (.stateNew bs.RootHash db)
    db (env.stateNew bs.RootHash db).1
    (match (env.stateNew bs.RootHash db).2 with
     | none => (.ok { root := bs.RootHash, db := db } : Except Err StateDB)
     | some e => .error e)
    (fun hl => by cases hl) (fun k _ => Or.inr ⟨k, by rw [hdb]⟩) h
  refine ⟨h1, h2, ?_⟩
  intro a ha
  cases hs : (env.stateNew bs.RootHash db).2 with
  | none =>
    rw [hs] at ha
    simp only [callTrie, Res.ok.injEq] at ha
    rw [← ha]
    exact hdb
  | some e =>
    rw [hs] at ha
    simp only [callTrie] at ha
    cases ha

theorem touches_bind {α β : Type} {P : Event → Prop} {Q : α → Prop}
    {Post : Heap → Heap → Prop} {m : Prog α} {f : α → Prog β} (hm : ReadOnly P Q m)
    (hrefl : ∀ h, Post h h) (hf : ∀ a, Q a → Touches P Post (f a)) :
    Touches P Post (m >>= f) := by
  intro h
  obtain ⟨h1, h2, h3⟩ := hm h
  rw [prog_bind_apply]
  unfold Prog.bind
  rcases hmh : m h with ⟨t, hp, r⟩
  rw [hmh] at h1 h2 h3
  simp only at h1 h2 h3
  subst h1
  cases r with
  | ok a =>
    obtain ⟨g1, g2⟩ := hf a (h3 a rfl) hp
    refine ⟨?_, g2⟩
    intro ev hev
    rcases List.mem_append.mp hev with hl | hr
    · exact h2 ev hl
    · exact g1 ev hr
  | err e => exact ⟨h2, hrefl hp⟩
  | panic s => exact ⟨h2, hrefl hp⟩

theorem callPost_refl (result : ResultPtr) (h : Heap) : callPost result h h :=
  ⟨fun _ => rfl, fun _ => rfl, fun _ => ⟨rfl, rfl⟩⟩

theorem touches_storeResult (P : Event → Prop) (result : ResultPtr) (v : AbiArg) :
    Touches P (callPost result) (storeResult result v) := by
  intro h
  refine ⟨?_, ?_⟩
  · intro ev hev
    cases result <;> cases v <;> simp [storeResult] at hev
  · cases result <;> cases v <;> simp [storeResult, callPost]

theorem touches_unpackResult (P : Event → Prop) (env : Env) (c : EvmContract)
    (result : ResultPtr) (m : String) (b : Bytes) (hp : ∀ a s l, P (.abiUnpack a s l)) :
    Touches P (callPost result) (c.unpackResult env result m b) := by
  unfold EvmContract.unpackResult
  exact touches_bind (readOnly_call P _ _ (hp _ _ _)) (callPost_refl result)
    (fun v _ => touches_storeResult P result v)

theorem touches_Call (env : Env) (client : Client) (result : ResultPtr) (method : String)
    (args : List AbiArg) :
    Touches (SnapshotEvent client.instanceID) (callPost result)
      (client.Call env result method args) := by
  unfold Client.Call
  refine touches_bind (readOnly_getContract _) (callPost_refl result) fun c _ => ?_
  refine touches_bind (readOnly_packMethod _ _ _ _ _ (fun _ _ _ hl => by cases hl))
    (callPost_refl result) fun cd _ => ?_
  refine touches_bind (readOnly_getEvmDb env _ _) (callPost_refl result) fun db hdb => ?_
  refine touches_bind (readOnly_getAccount _) (callPost_refl result) fun a _ => ?_
  refine touches_bind (readOnly_getContract _) (callPost_refl result) fun c2 _ => ?_
  refine touches_bind (readOnly_callTrie _ _ _ _ _ (fun hl => by cases hl)
    (fun k _ => Or.inr ⟨k, by rw [hdb]⟩)) (callPost_refl result) fun ret _ => ?_
  refine touches_bind (readOnly_getContract _) (callPost_refl result) fun c3 _ => ?_
  exact touches_unpackResult _ _ _ _ _ _ (fun _ _ _ hl => by cases hl)

theorem commits_bind {α β : Type} {P : Event → Prop} {Q : α → Prop}
    {Post : Heap → Heap → Prop} {m : Prog α} {f : α → Prog β} (hm : ReadOnly P Q m)
    (hf : ∀ a, Commits Post (f a)) : Commits Post (m >>= f) := by
  intro h
  obtain ⟨h1, _, _⟩ := hm h
  rw [prog_bind_apply]
  unfold Prog.bind
  rcases hmh : m h with ⟨t, hp, r⟩
  rw [hmh] at h1
  simp only at h1
  subst h1
  cases r with
  | ok a =>
    obtain ⟨g1, g2⟩ := hf a hp
    exact ⟨g1, g2⟩
  | err e => exact ⟨fun a ha => (by cases ha), fun _ => rfl⟩
  | panic s => exact ⟨fun a ha => (by cases ha), fun _ => rfl⟩

theorem readOnly_any_call {α : Type} (ev : Event) (r : Except Err α) :
    ReadOnly (fun _ => True) (fun _ => True) (call ev r) :=
  readOnly_call _ ev r trivial

theorem readOnly_signAndMarshalTx (env : Env) (a : EvmAccount) (tx : EthTx) :
    ReadOnly (fun _ => True) (fun _ => True) (a.SignAndMarshalTx env tx) := by
  unfold EvmAccount.SignAndMarshalTx
  refine readOnly_bind (readOnly_any_call _ _) fun sig _ => ?_
  refine readOnly_bind (readOnly_any_call _ _) fun b _ => ?_
  exact readOnly_pure _ _ _ trivial

theorem readOnly_fill (env : Env) (ctx : ClientTransaction) (signer : Signer) :
    ReadOnly (fun _ => True) (fun _ => True) (ctx.FillSignersAndSignWith env signer) :=
  readOnly_any_call _ _

theorem readOnly_invoke (env : Env) (client : Client) (command : String) (args : Arguments) :
    ReadOnly (fun _ => True) (fun _ => True) (client.invoke env command args) := by
  unfold Client.invoke
  refine readOnly_bind (readOnly_any_call _ _) fun counters _ => ?_
  refine readOnly_bind (readOnly_index0 _ _) fun c0 _ => ?_
  refine readOnly_bind (readOnly_fill _ _ _) fun ctx _ => ?_
  exact readOnly_callErr _ _ _ trivial

theorem commits_Deploy (env : Env) (client : Client) (gasLimit : Nat) (gasPrice : Int)
    (amount : Nat) (args : List AbiArg) :
    Commits (deployPost env) (client.Deploy env gasLimit gasPrice amount args) := by
  unfold Client.Deploy
  refine commits_bind (readOnly_getContract (fun _ => True)) fun c => ?_
  refine commits_bind (readOnly_any_call _ _) fun packed => ?_
  refine commits_bind (readOnly_getContract (fun _ => True)) fun c2 => ?_
  refine commits_bind (readOnly_getAccount (fun _ => True)) fun a => ?_
  refine commits_bind (readOnly_getAccount (fun _ => True)) fun a2 => ?_
  refine commits_bind (readOnly_signAndMarshalTx _ _ _) fun buf => ?_
  refine commits_bind (readOnly_invoke _ _ _ _) fun _ => ?_
  intro h
  simp [prog_bind_apply, Prog.bind, getAccount, setContractAddress, incrNonce,
    prog_pure_apply, deployPost]

theorem commits_Transaction (env : Env) (client : Client) (gasLimit : Nat) (gasPrice : Int)
    (amount : Nat) (method : String) (args : List AbiArg) :
    Commits transactionPost (client.Transaction env gasLimit gasPrice amount method args) := by
  unfold Client.Transaction
  refine commits_bind (readOnly_getContract (fun _ => True)) fun c => ?_
  refine commits_bind (readOnly_any_call _ _) fun packed => ?_
  refine commits_bind (readOnly_getAccount (fun _ => True)) fun a => ?_
  refine commits_bind (readOnly_getContract (fun _ => True)) fun c2 => ?_
  refine commits_bind (readOnly_getAccount (fun _ => True)) fun a2 => ?_
  refine commits_bind (readOnly_signAndMarshalTx _ _ _) fun buf => ?_
  refine commits_bind (readOnly_invoke _ _ _ _) fun _ => ?_
  intro h
  simp [prog_bind_apply, Prog.bind, incrNonce, prog_pure_apply, transactionPost]

/-! ## The run of invoke -/

theorem invoke_eq (env : Env) (client : Client) (command : String) (args : Arguments)
    (h : Heap) :
    client.invoke env command args h =
      match env.getSignerCounters client.bcClient client.signer.Identity with
      | .error e => ⟨[.getSignerCounters client.signer.Identity], h, .err e⟩
      | .ok [] => ⟨[.getSignerCounters client.signer.Identity], h,
          .panic "index out of range [0] with length 0"⟩
      | .ok (c :: _) =>
        match env.signWith (invokeCtx env client command args c [] []) client.signer with
        | .error e =>
          ⟨[.getSignerCounters client.signer.Identity,
            .fillSignersAndSignWith (invokeCtx env client command args c [] []) client.signer],
           h, .err e⟩
        | .ok sigs =>
          ⟨[.getSignerCounters client.signer.Identity,
            .fillSignersAndSignWith (invokeCtx env client command args c [] []) client.signer,
            .addTransactionAndWait
              (invokeCtx env client command args c [client.signer.Identity] [sigs.getD 0 []]) 5],
           h,
           match env.addTransactionAndWait client.bcClient
              (invokeCtx env client command args c [client.signer.Identity] [sigs.getD 0 []])
              5 with
           | none => .ok ()
           | some e => .err e⟩ := by
  unfold Client.invoke ClientTransaction.FillSignersAndSignWith
  simp only [prog_bind_apply, Prog.bind, call, index0, callErr]
  cases hc : env.getSignerCounters client.bcClient client.signer.Identity with
  | error e => rfl
  | ok cs =>
    cases cs with
    | nil => rfl
    | cons c cs =>
      simp only []
      change _ = match env.signWith (invokeCtx env client command args c [] []) client.signer with
        | .error e => _
        | .ok sigs => _
      cases hs : env.signWith (invokeCtx env client command args c [] []) client.signer with
      | error e =>
        simp only [invokeCtx] at hs
        simp only [hs]
        rfl
      | ok sigs =>
        simp only [invokeCtx] at hs
        simp only [hs]
        simp only [invokeCtx, List.enum, List.enumFrom, List.map]
        cases env.addTransactionAndWait client.bcClient _ 5 <;> rfl

/-! ## Deploy and Transaction: address, nonce and the error paths -/

/-- C1: when Deploy returns no error, the descriptor's Address is CreateAddress of the
account's address and of the nonce as it was before the increment, the account's Nonce
is the old nonce plus one modulo 2^64, and the account's address and key and the
descriptor's ABI and bytecode are unchanged. -/
theorem deploy_success_sets_address_and_nonce (env : Env) (client : Client) (gasLimit : Nat)
    (gasPrice : Int) (amount : Nat) (args : List AbiArg) (h : Heap)
    (hok : (client.Deploy env gasLimit gasPrice amount args h).res = .ok ()) :
    (client.Deploy env gasLimit gasPrice amount args h).heap.contract.Address
        = env.createAddress h.account.Address h.account.Nonce ∧
    (client.Deploy env gasLimit gasPrice amount args h).heap.account.Nonce
        = (h.account.Nonce + 1) % 2 ^ 64 ∧
    (client.Deploy env gasLimit gasPrice amount args h).heap.account.Address
        = h.account.Address ∧
    (client.Deploy env gasLimit gasPrice amount args h).heap.account.PrivateKey
        = h.account.PrivateKey ∧
    (client.Deploy env gasLimit gasPrice amount args h).heap.contract.Abi = h.contract.Abi ∧
    (client.Deploy env gasLimit gasPrice amount args h).heap.contract.Bytecode
        = h.contract.Bytecode := by
  have hpost := (commits_Deploy env client gasLimit gasPrice amount args h).1 () hok
  unfold deployPost at hpost
  rw [hpost]
  exact ⟨rfl, rfl, rfl, rfl, rfl, rfl⟩

/-- C1, at a sample input: a deployment that succeeds from nonce 0. -/
theorem deploy_success_sets_address_and_nonce_witness :
    (cl0.Deploy okEnv 100000 1 7 [] h0).res = .ok () ∧
    (cl0.Deploy okEnv 100000 1 7 [] h0).heap.contract.Address
        = okEnv.createAddress h0.account.Address h0.account.Nonce ∧
    (cl0.Deploy okEnv 100000 1 7 [] h0).heap.account.Nonce = (h0.account.Nonce + 1) % 2 ^ 64 ∧
    (cl0.Deploy okEnv 100000 1 7 [] h0).heap.account.Address = h0.account.Address ∧
    (cl0.Deploy okEnv 100000 1 7 [] h0).heap.account.PrivateKey = h0.account.PrivateKey ∧
    (cl0.Deploy okEnv 100000 1 7 [] h0).heap.contract.Abi = h0.contract.Abi ∧
    (cl0.Deploy okEnv 100000 1 7 [] h0).heap.contract.Bytecode = h0.contract.Bytecode :=
  ⟨by decide, deploy_success_sets_address_and_nonce okEnv cl0 100000 1 7 [] h0 (by decide)⟩

/-- C2: when Deploy or Transaction returns an error, the account's Nonce and the
descriptor's Address are what they were before the call; the Nonce changes only when the
call returns nil, and then it is the old nonce plus one modulo 2^64. -/
theorem deploy_transaction_error_keeps_nonce (env : Env) (client : Client) (gasLimit : Nat)
    (gasPrice : Int) (amount : Nat) (method : String) (args : List AbiArg) (h : Heap) :
    (∀ e, (client.Deploy env gasLimit gasPrice amount args h).res = .err e →
      (client.Deploy env gasLimit gasPrice amount args h).heap.account.Nonce = h.account.Nonce ∧
      (client.Deploy env gasLimit gasPrice amount args h).heap.contract.Address
        = h.contract.Address) ∧
    (∀ e, (client.Transaction env gasLimit gasPrice amount method args h).res = .err e →
      (client.Transaction env gasLimit gasPrice amount method args h).heap.account.Nonce
        = h.account.Nonce ∧
      (client.Transaction env gasLimit gasPrice amount method args h).heap.contract.Address
        = h.contract.Address) ∧
    ((client.Deploy env gasLimit gasPrice amount args h).heap.account.Nonce ≠ h.account.Nonce →
      (client.Deploy env gasLimit gasPrice amount args h).res = .ok () ∧
      (client.Deploy env gasLimit gasPrice amount args h).heap.account.Nonce
        = (h.account.Nonce + 1) % 2 ^ 64) ∧
    ((client.Transaction env gasLimit gasPrice amount method args h).heap.account.Nonce
        ≠ h.account.Nonce →
      (client.Transaction env gasLimit gasPrice amount method args h).res = .ok () ∧
      (client.Transaction env gasLimit gasPrice amount method args h).heap.account.Nonce
        = (h.account.Nonce + 1) % 2 ^ 64) := by
  obtain ⟨d1, d2⟩ := commits_Deploy env client gasLimit gasPrice amount args h
  obtain ⟨t1, t2⟩ := commits_Transaction env client gasLimit gasPrice amount method args h
  refine ⟨?_, ?_, ?_, ?_⟩
  · intro e he
    have hh := d2 (fun a ha => by rw [he] at ha; cases ha)
    rw [hh]
    exact ⟨rfl, rfl⟩
  · intro e he
    have hh := t2 (fun a ha => by rw [he] at ha; cases ha)
    rw [hh]
    exact ⟨rfl, rfl⟩
  · intro hne
    cases hr : (client.Deploy env gasLimit gasPrice amount args h).res with
    | ok a =>
      have hpost := d1 a hr
      unfold deployPost at hpost
      exact ⟨rfl, by rw [hpost]⟩
    | err e =>
      exact absurd (by rw [d2 (fun a ha => by rw [hr] at ha; cases ha)]) hne
    | panic s =>
      exact absurd (by rw [d2 (fun a ha => by rw [hr] at ha; cases ha)]) hne
  · intro hne
    cases hr : (client.Transaction env gasLimit gasPrice amount method args h).res with
    | ok a =>
      have hpost := t1 a hr
      unfold transactionPost at hpost
      exact ⟨rfl, by rw [hpost]⟩
    | err e =>
      exact absurd (by rw [t2 (fun a ha => by rw [hr] at ha; cases ha)]) hne
    | panic s =>
      exact absurd (by rw [t2 (fun a ha => by rw [hr] at ha; cases ha)]) hne

/-- C2, at a sample input: the ledger rejects the submission of a Deploy and of a
Transaction, and the nonce and the address stay as they were. -/
theorem deploy_transaction_error_keeps_nonce_witness :
    ((cl0.Deploy rejectEnv 100000 1 7 [] h0).res = .err "transaction rejected" ∧
      (cl0.Deploy rejectEnv 100000 1 7 [] h0).heap.account.Nonce = h0.account.Nonce ∧
      (cl0.Deploy rejectEnv 100000 1 7 [] h0).heap.contract.Address = h0.contract.Address) ∧
    ((cl0.Transaction rejectEnv 100000 1 7 "set" [.uint 42] h0).res
        = .err "transaction rejected" ∧
      (cl0.Transaction rejectEnv 100000 1 7 "set" [.uint 42] h0).heap.account.Nonce
        = h0.account.Nonce ∧
      (cl0.Transaction rejectEnv 100000 1 7 "set" [.uint 42] h0).heap.contract.Address
        = h0.contract.Address) :=
  ⟨⟨by decide,
    (deploy_transaction_error_keeps_nonce rejectEnv cl0 100000 1 7 "set" [.uint 42] h0).1
      "transaction rejected" (by decide)⟩,
   ⟨by decide,
    (deploy_transaction_error_keeps_nonce rejectEnv cl0 100000 1 7 "set" [.uint 42] h0).2.1
      "transaction rejected" (by decide)⟩⟩

/-! ## The state snapshot -/

/-- C3: when the verification of the proof returns an error, getEvmDb returns that error
and no state database, and its only steps are the proof request and the verification:
the key and value are not extracted, nothing is decoded, no ledger-backed database and
no state database is built. -/
theorem getEvmDb_stops_at_failed_verification (env : Env) (bcClient : ByzcoinClient)
    (instID : InstanceID) (h : Heap) (proofResponse : GetProofResponse) (e : Err)
    (hproof : env.getProof bcClient instID = .ok proofResponse)
    (hverify : env.proofVerify proofResponse.Proof bcClient.ID = some e) :
    getEvmDb env bcClient instID h
      = { trace := [.getProof instID, .proofVerify proofResponse.Proof bcClient.ID],
          heap := h, res := .err e } := by
  simp [getEvmDb, prog_bind_apply, Prog.bind, call, callErr, hproof, hverify]

/-- C3, at a sample input: a proof that does not verify. -/
theorem getEvmDb_stops_at_failed_verification_witness :
    getEvmDb verifyFailEnv cl0.bcClient cl0.instanceID h0
      = { trace := [.getProof cl0.instanceID, .proofVerify { raw := [] } cl0.bcClient.ID],
          heap := h0, res := .err "proof verification failed" } :=
  getEvmDb_stops_at_failed_verification verifyFailEnv cl0.bcClient cl0.instanceID h0
    { Proof := { raw := [] } } "proof verification failed" rfl rfl

/-- C4 (amended): Call writes only through its result argument.  It leaves the account's
Nonce unchanged unless result points to that Nonce, and the descriptor's Address unchanged
unless result points to that Address; when result is nil or points to a variable of the
caller, the account and the descriptor are as they were.  For every result and every
outcome Call never reads the signer's replay counter and never submits a transaction, and
the only calls that reach the ledger are the proof request for the client's instance and
the lookups of trie nodes of that instance. -/
theorem call_writes_only_through_result (env : Env) (client : Client) (result : ResultPtr)
    (method : String) (args : List AbiArg) (h : Heap) :
    (result ≠ .accountNonce →
      (client.Call env result method args h).heap.account.Nonce = h.account.Nonce) ∧
    (result ≠ .contractAddress →
      (client.Call env result method args h).heap.contract.Address = h.contract.Address) ∧
    (result = .null ∨ result = .caller →
      (client.Call env result method args h).heap.account = h.account ∧
      (client.Call env result method args h).heap.contract = h.contract) ∧
    (∀ ev ∈ (client.Call env result method args h).trace,
      ev.isCounterRead = false ∧ ev.isSubmission = false) ∧
    (∀ ev ∈ (client.Call env result method args h).trace, ev.isLedgerCall = true →
      ev = .getProof client.instanceID ∨ ∃ k, ev = .getTrieNode client.instanceID k) := by
  obtain ⟨h2, hpost⟩ := touches_Call env client result method args h
  refine ⟨hpost.1, hpost.2.1, hpost.2.2, ?_, h2⟩
  intro ev hev
  have hs := h2 ev hev
  unfold SnapshotEvent at hs
  cases ev <;> first
    | exact ⟨rfl, rfl⟩
    | (rcases hs rfl with hp | ⟨k, hk⟩
       · cases hp
       · cases hk)

/-- C4, at a sample input: a call that succeeds, reads one trie node and stores 42 in a
variable of the caller; the Nonce and the Address stay as they were. -/
theorem call_writes_only_through_result_witness :
    (cl0.Call okEnv .caller "get" [] h0).res = .ok () ∧
    (cl0.Call okEnv .caller "get" [] h0).heap.callerVar = some (.uint 42) ∧
    (cl0.Call okEnv .caller "get" [] h0).trace.map Event.isLedgerCall
      = [false, true, false, false, false, false, false, false, true, false] ∧
    (cl0.Call okEnv .caller "get" [] h0).heap.account.Nonce = h0.account.Nonce ∧
    (cl0.Call okEnv .caller "get" [] h0).heap.contract.Address = h0.contract.Address ∧
    (cl0.Call okEnv .caller "get" [] h0).heap.account = h0.account ∧
    (cl0.Call okEnv .caller "get" [] h0).heap.contract = h0.contract :=
  have key := call_writes_only_through_result okEnv cl0 .caller "get" [] h0
  ⟨by decide, by decide, by decide, key.1 (by decide), key.2.1 (by decide),
   key.2.2.1 (Or.inr rfl)⟩

/-- C4, as first stated, fails: with result pointing to the Nonce of the account, Call
returns nil and the Nonce, 0 before the call, is 42 after it. -/
theorem call_changes_nonce_through_result :
    h0.account.Nonce = 0 ∧
    (cl0.Call okEnv .accountNonce "get" [] h0).res = .ok () ∧
    (cl0.Call okEnv .accountNonce "get" [] h0).heap.account.Nonce = 42 :=
  ⟨rfl, by decide, by decide⟩

/-! ## The ledger instruction protocol -/

/-- C5 (amended): invoke starts with one read of the signer's replay counter, reads it
once, and submits at most once.  When the read fails it returns that error and submits
nothing.  When the read returns a first counter c and signing fails, it returns the
signing error and submits nothing.  When signing succeeds it submits, once and with a wait
of 5 blocks, one transaction of exactly one instruction: an Invoke at the instance ID of
the client with the bridge's contract ID, the command and the arguments as given and the
signer counter (c + 1) modulo 2^64; it returns the error of the submission unchanged. -/
theorem invoke_reads_counter_then_submits_once (env : Env) (client : Client)
    (command : String) (args : Arguments) (h : Heap) :
    (client.invoke env command args h).trace.head?
        = some (.getSignerCounters client.signer.Identity) ∧
    (client.invoke env command args h).trace.countP Event.isCounterRead = 1 ∧
    (client.invoke env command args h).trace.countP Event.isSubmission ≤ 1 ∧
    (∀ e, env.getSignerCounters client.bcClient client.signer.Identity = .error e →
      client.invoke env command args h
        = { trace := [.getSignerCounters client.signer.Identity], heap := h, res := .err e }) ∧
    (∀ c cs, env.getSignerCounters client.bcClient client.signer.Identity = .ok (c :: cs) →
      (∀ e,
        env.signWith
          { Instructions := [{
              InstanceID := client.instanceID,
              SignerCounter := [(c + 1) % 2 ^ 64],
              Invoke := some
                { ContractID := env.ContractBEvmID, Command := command, Args := args },
              Spawn := none, SignerIdentities := [], Signatures := [] }] }
          client.signer = .error e →
        (client.invoke env command args h).res = .err e ∧
        (client.invoke env command args h).trace.filter Event.isSubmission = []) ∧
      (∀ sigs,
        env.signWith
          { Instructions := [{
              InstanceID := client.instanceID,
              SignerCounter := [(c + 1) % 2 ^ 64],
              Invoke := some
                { ContractID := env.ContractBEvmID, Command := command, Args := args },
              Spawn := none, SignerIdentities := [], Signatures := [] }] }
          client.signer = .ok sigs →
        (client.invoke env command args h).trace.filter Event.isSubmission
          = [.addTransactionAndWait
              { Instructions := [{
                  InstanceID := client.instanceID,
                  SignerCounter := [(c + 1) % 2 ^ 64],
                  Invoke := some
                    { ContractID := env.ContractBEvmID, Command := command, Args := args },
                  Spawn := none,
                  SignerIdentities := [client.signer.Identity],
                  Signatures := [sigs.getD 0 []] }] } 5] ∧
        (client.invoke env command args h).res
          = (match env.addTransactionAndWait client.bcClient
              { Instructions := [{
                  InstanceID := client.instanceID,
                  SignerCounter := [(c + 1) % 2 ^ 64],
                  Invoke := some
                    { ContractID := env.ContractBEvmID, Command := command, Args := args },
                  Spawn := none,
                  SignerIdentities := [client.signer.Identity],
                  Signatures := [sigs.getD 0 []] }] } 5 with
             | none => .ok ()
             | some e => .err e))) := by
  have key := invoke_eq env client command args h
  refine ⟨?_, ?_, ?_, ?_, ?_⟩
  · rw [key]
    cases env.getSignerCounters client.bcClient client.signer.Identity with
    | error e => rfl
    | ok cs =>
      cases cs with
      | nil => rfl
      | cons c cs =>
        dsimp only
        cases env.signWith (invokeCtx env client command args c [] []) client.signer <;> rfl
  · rw [key]
    cases env.getSignerCounters client.bcClient client.signer.Identity with
    | error e => rfl
    | ok cs =>
      cases cs with
      | nil => rfl
      | cons c cs =>
        dsimp only
        cases env.signWith (invokeCtx env client command args c [] []) client.signer <;> rfl
  · rw [key]
    cases env.getSignerCounters client.bcClient client.signer.Identity with
    | error e => exact Nat.zero_le 1
    | ok cs =>
      cases cs with
      | nil => exact Nat.zero_le 1
      | cons c cs =>
        dsimp only
        cases env.signWith (invokeCtx env client command args c [] []) client.signer with
        | error e => exact Nat.zero_le 1
        | ok sigs => exact Nat.le_refl 1
  · intro e he
    rw [key, he]
  · intro c cs hc
    refine ⟨?_, ?_⟩
    · intro e he
      have he2 : env.signWith (invokeCtx env client command args c [] []) client.signer
          = .error e := he
      rw [key, hc]
      dsimp only
      rw [he2]
      exact ⟨rfl, rfl⟩
    · intro sigs hs
      have hs2 : env.signWith (invokeCtx env client command args c [] []) client.signer
          = .ok sigs := hs
      rw [key, hc]
      dsimp only
      rw [hs2]
      exact ⟨rfl, rfl⟩

/-- C5, at a sample input: the counter read returns 0, signing succeeds, and the one
submission carries counter 1, the command and the arguments. -/
theorem invoke_reads_counter_then_submits_once_witness :
    okEnv.getSignerCounters cl0.bcClient cl0.signer.Identity = .ok [0] ∧
    (cl0.invoke okEnv "credit" [{ Name := "amount", Value := [1] }] h0).trace.filter
        Event.isSubmission
      = [.addTransactionAndWait
          { Instructions := [{
              InstanceID := cl0.instanceID,
              SignerCounter := [(0 + 1) % 2 ^ 64],
              Invoke := some { ContractID := okEnv.ContractBEvmID, Command := "credit",
                               Args := [{ Name := "amount", Value := [1] }] },
              Spawn := none,
              SignerIdentities := [cl0.signer.Identity],
              Signatures := [[[5]].getD 0 []] }] } 5] ∧
    (cl0.invoke okEnv "credit" [{ Name := "amount", Value := [1] }] h0).res
      = (match okEnv.addTransactionAndWait cl0.bcClient
          { Instructions := [{
              InstanceID := cl0.instanceID,
              SignerCounter := [(0 + 1) % 2 ^ 64],
              Invoke := some { ContractID := okEnv.ContractBEvmID, Command := "credit",
                               Args := [{ Name := "amount", Value := [1] }] },
              Spawn := none,
              SignerIdentities := [cl0.signer.Identity],
              Signatures := [[[5]].getD 0 []] }] } 5 with
         | none => .ok ()
         | some e => .err e) :=
  ⟨rfl,
   ((invoke_reads_counter_then_submits_once okEnv cl0 "credit"
      [{ Name := "amount", Value := [1] }] h0).2.2.2.2 0 [] rfl).2 [[5]] rfl⟩

/-- C5, as first stated, fails: the counter read succeeds, the signer then fails to sign,
and invoke returns the signing error without submitting anything. -/
theorem invoke_counter_read_ok_yet_no_submission :
    signFailEnv.getSignerCounters cl0.bcClient cl0.signer.Identity = .ok [0] ∧
    (cl0.invoke signFailEnv "transaction" [{ Name := "tx", Value := [9] }] h0).res
      = .err "signing failed" ∧
    (cl0.invoke signFailEnv "transaction" [{ Name := "tx", Value := [9] }] h0).trace.countP
      Event.isSubmission = 0 :=
  ⟨rfl, by decide, by decide⟩

/-- C7: the code panics where the claim says it cannot.  The ledger answers the
replay-counter query with success and an empty list of counters; NewBEvm, Deploy,
Transaction and CreditAccount then index the first counter of an empty slice and end in a
run-time panic instead of returning nil or an error. -/
theorem empty_counter_list_panics :
    emptyCountersEnv.getSignerCounters cl0.bcClient cl0.signer.Identity = .ok [] ∧
    (NewBEvm emptyCountersEnv cl0.bcClient cl0.signer { BaseID := [2] } h0).res
      = .panic "index out of range [0] with length 0" ∧
    (cl0.Deploy emptyCountersEnv 100000 1 7 [] h0).res
      = .panic "index out of range [0] with length 0" ∧
    (cl0.Transaction emptyCountersEnv 100000 1 7 "set" [.uint 42] h0).res
      = .panic "index out of range [0] with length 0" ∧
    (cl0.CreditAccount emptyCountersEnv 1000 addr0 h0).res
      = .panic "index out of range [0] with length 0" :=
  ⟨rfl, by decide, by decide, by decide, by decide⟩

/-! ## The state snapshot: absent instances -/

/-- C6: the code builds a snapshot where the claim says it must fail.  The proof
verifies, the key it yields is the identifier of another instance (the requested one is
absent), and getEvmDb, which drops the key, decodes the other instance's value and
returns a state database rooted at it. -/
theorem getEvmDb_accepts_proof_of_absence :
    absentEnv.getProof cl0.bcClient cl0.instanceID = .ok { Proof := { raw := [] } } ∧
    absentEnv.proofVerify { raw := [] } cl0.bcClient.ID = none ∧
    absentEnv.proofKeyValue { raw := [] } = .ok (NewInstanceID [9], [2], "other", []) ∧
    NewInstanceID [9] ≠ cl0.instanceID ∧
    (getEvmDb absentEnv cl0.bcClient cl0.instanceID h0).res
      = .ok { root := [3], db := { instanceID := cl0.instanceID, client := cl0.bcClient } } ∧
    (getEvmDb absentEnv cl0.bcClient cl0.instanceID h0).trace
      = [.getProof cl0.instanceID, .proofVerify { raw := [] } cl0.bcClient.ID,
         .proofKeyValue { raw := [] }, .protobufDecode [2],
         .newClientByzDatabase cl0.instanceID,
         .stateNew [3] { instanceID := cl0.instanceID, client := cl0.bcClient }] :=
  ⟨rfl, rfl, rfl, by decide, by decide, by decide⟩

/-! ## The value of the transaction -/

/-- C10: the code signs a negative value where the claim says the value is the amount.
For the amount 2^63 the transaction handed to the signer by Deploy and by Transaction
has the value -2^63; the nonce, gas limit, gas price, payload and destination are the
ones the claim names. -/
theorem amount_above_int64_becomes_negative :
    (cl0.Deploy okEnv 100000 1 (2 ^ 63) [] h0).trace.get? 1
      = some (.signTx
          { AccountNonce := 0, Price := 1, GasLimit := 100000, Recipient := none,
            Amount := -9223372036854775808, Payload := [96, 128, 1, 2] } { d := 1 }) ∧
    (cl0.Transaction okEnv 100000 1 (2 ^ 63) "set" [.uint 42] h0).trace.get? 1
      = some (.signTx
          { AccountNonce := 0, Price := 1, GasLimit := 100000, Recipient := some addr0,
            Amount := -9223372036854775808, Payload := [1, 2] } { d := 1 }) :=
  ⟨by decide, by decide⟩

/-! ## Two deployments in a row -/

theorem sampleCreateAddress_injective (a : EthAddress) (n m : Nat) (hn : n < 2 ^ 64)
    (hm : m < 2 ^ 64) (h : sampleCreateAddress a n = sampleCreateAddress a m) : n = m := by
  have hv := congrArg Subtype.val h
  simp only [sampleCreateAddress, List.cons.injEq] at hv
  omega

theorem succ_mod_ne_self (n : Nat) : (n + 1) % 2 ^ 64 ≠ n := by
  omega

/-- C8 (amended): two consecutive successful Deploy calls of the same descriptor with the
same account store first CreateAddress(a, n) and then CreateAddress(a, (n + 1) mod 2^64):
the second call uses the nonce the first call left.  When n is below 2^64 - 1 that nonce
is n + 1, so the two nonces differ by exactly one.  The two addresses are distinct
whenever CreateAddress gives distinct addresses to distinct 64-bit nonces of that
account. -/
theorem deploy_twice_uses_consecutive_nonces (env1 env2 : Env) (client : Client)
    (gasLimit1 gasLimit2 : Nat) (gasPrice1 gasPrice2 : Int) (amount1 amount2 : Nat)
    (args1 args2 : List AbiArg) (h : Heap)
    (hca : env2.createAddress = env1.createAddress)
    (hok1 : (client.Deploy env1 gasLimit1 gasPrice1 amount1 args1 h).res = .ok ())
    (hok2 : (client.Deploy env2 gasLimit2 gasPrice2 amount2 args2
      (client.Deploy env1 gasLimit1 gasPrice1 amount1 args1 h).heap).res = .ok ()) :
    (client.Deploy env1 gasLimit1 gasPrice1 amount1 args1 h).heap.contract.Address
      = env1.createAddress h.account.Address h.account.Nonce ∧
    (client.Deploy env1 gasLimit1 gasPrice1 amount1 args1 h).heap.account.Nonce
      = (h.account.Nonce + 1) % 2 ^ 64 ∧
    (client.Deploy env2 gasLimit2 gasPrice2 amount2 args2
      (client.Deploy env1 gasLimit1 gasPrice1 amount1 args1 h).heap).heap.contract.Address
      = env1.createAddress h.account.Address ((h.account.Nonce + 1) % 2 ^ 64) ∧
    (h.account.Nonce < 2 ^ 64 - 1 →
      (client.Deploy env1 gasLimit1 gasPrice1 amount1 args1 h).heap.account.Nonce
        = h.account.Nonce + 1 ∧
      (client.Deploy env2 gasLimit2 gasPrice2 amount2 args2
        (client.Deploy env1 gasLimit1 gasPrice1 amount1 args1 h).heap).heap.contract.Address
        = env1.createAddress h.account.Address (h.account.Nonce + 1)) ∧
    (h.account.Nonce < 2 ^ 64 →
      (∀ n m, n < 2 ^ 64 → m < 2 ^ 64 →
        env1.createAddress h.account.Address n = env1.createAddress h.account.Address m →
        n = m) →
      (client.Deploy env2 gasLimit2 gasPrice2 amount2 args2
        (client.Deploy env1 gasLimit1 gasPrice1 amount1 args1 h).heap).heap.contract.Address
        ≠ (client.Deploy env1 gasLimit1 gasPrice1 amount1 args1 h).heap.contract.Address) := by
  have p1 := (commits_Deploy env1 client gasLimit1 gasPrice1 amount1 args1 h).1 () hok1
  have p2 := (commits_Deploy env2 client gasLimit2 gasPrice2 amount2 args2
    (client.Deploy env1 gasLimit1 gasPrice1 amount1 args1 h).heap).1 () hok2
  unfold deployPost at p1 p2
  rw [p2, p1, hca]
  refine ⟨rfl, rfl, rfl, ?_, ?_⟩
  · intro hlt
    have hmod : (h.account.Nonce + 1) % 2 ^ 64 = h.account.Nonce + 1 :=
      Nat.mod_eq_of_lt (by omega)
    exact ⟨hmod, by simp only [hmod]⟩
  · intro hn hinj heq
    have hmod : (h.account.Nonce + 1) % 2 ^ 64 < 2 ^ 64 := Nat.mod_lt _ (by norm_num)
    exact succ_mod_ne_self h.account.Nonce (hinj _ _ hmod hn heq)

/-- C8, at a sample input: two deployments from nonce 0 give the addresses of the nonces
0 and 1, which differ. -/
theorem deploy_twice_uses_consecutive_nonces_witness :
    (cl0.Deploy okEnv 100000 1 0 [] h0).res = .ok () ∧
    (cl0.Deploy okEnv 100000 1 0 [] (cl0.Deploy okEnv 100000 1 0 [] h0).heap).res = .ok () ∧
    (cl0.Deploy okEnv 100000 1 0 [] h0).heap.contract.Address
      = okEnv.createAddress h0.account.Address h0.account.Nonce ∧
    (cl0.Deploy okEnv 100000 1 0 [] h0).heap.account.Nonce
      = (h0.account.Nonce + 1) % 2 ^ 64 ∧
    (cl0.Deploy okEnv 100000 1 0 [] (cl0.Deploy okEnv 100000 1 0 [] h0).heap).heap.contract.Address
      = okEnv.createAddress h0.account.Address ((h0.account.Nonce + 1) % 2 ^ 64) ∧
    ((cl0.Deploy okEnv 100000 1 0 [] h0).heap.account.Nonce = h0.account.Nonce + 1 ∧
      (cl0.Deploy okEnv 100000 1 0 []
        (cl0.Deploy okEnv 100000 1 0 [] h0).heap).heap.contract.Address
        = okEnv.createAddress h0.account.Address (h0.account.Nonce + 1)) ∧
    (cl0.Deploy okEnv 100000 1 0 [] (cl0.Deploy okEnv 100000 1 0 [] h0).heap).heap.contract.Address
      ≠ (cl0.Deploy okEnv 100000 1 0 [] h0).heap.contract.Address :=
  have key := deploy_twice_uses_consecutive_nonces okEnv okEnv cl0 100000 100000 1 1 0 0 [] []
    h0 rfl (by decide) (by decide)
  ⟨by decide, by decide, key.1, key.2.1, key.2.2.1, key.2.2.2.1 (by decide),
   key.2.2.2.2 (by decide)
    (fun n m hn hm => sampleCreateAddress_injective h0.account.Address n m hn hm)⟩

/-- C8, as first stated, fails.  From the nonce 2^64 - 1 the first deployment leaves the
nonce 0, so the second address is CreateAddress(a, 0): the two nonces do not differ by
one and the second is not n + 1.  And nothing in the client makes the two addresses
distinct: where CreateAddress gives both nonces the same address, both deployments
succeed and store the same address. -/
theorem deploy_twice_nonce_wraps_or_addresses_coincide :
    (hMaxNonce.account.Nonce = 2 ^ 64 - 1 ∧
      (cl0.Deploy okEnv 100000 1 0 [] hMaxNonce).res = .ok () ∧
      (cl0.Deploy okEnv 100000 1 0 [] hMaxNonce).heap.account.Nonce = 0 ∧
      (cl0.Deploy okEnv 100000 1 0 []
        (cl0.Deploy okEnv 100000 1 0 [] hMaxNonce).heap).res = .ok () ∧
      (cl0.Deploy okEnv 100000 1 0 []
        (cl0.Deploy okEnv 100000 1 0 [] hMaxNonce).heap).heap.contract.Address
        = okEnv.createAddress hMaxNonce.account.Address 0 ∧
      (cl0.Deploy okEnv 100000 1 0 [] hMaxNonce).heap.account.Nonce
        ≠ hMaxNonce.account.Nonce + 1) ∧
    ((cl0.Deploy constAddressEnv 100000 1 0 [] h0).res = .ok () ∧
      (cl0.Deploy constAddressEnv 100000 1 0 []
        (cl0.Deploy constAddressEnv 100000 1 0 [] h0).heap).res = .ok () ∧
      (cl0.Deploy constAddressEnv 100000 1 0 []
        (cl0.Deploy constAddressEnv 100000 1 0 [] h0).heap).heap.contract.Address
        = (cl0.Deploy constAddressEnv 100000 1 0 [] h0).heap.contract.Address) :=
  ⟨⟨by decide, by decide, by decide, by decide, by decide, by decide⟩,
   ⟨by decide, by decide, by decide⟩⟩

/-! ## Crediting an account -/

theorem foldr_bytesLE (fuel n : Nat) (hle : n ≤ fuel) :
    (bytesLE fuel n).foldr (fun d acc => acc * 256 + d) 0 = n := by
  induction fuel generalizing n with
  | zero =>
    have hz : n = 0 := Nat.le_zero.mp hle
    subst hz
    rfl
  | succ fuel ih =>
    unfold bytesLE
    by_cases hn : n = 0
    · subst hn
      rfl
    · rw [if_neg hn, List.foldr_cons, ih (n / 256) (by omega)]
      omega

theorem bigIntSetBytes_bigIntBytes (x : Int) :
    bigIntSetBytes (bigIntBytes x) = (x.natAbs : Int) := by
  unfold bigIntSetBytes bigIntBytes
  rw [List.foldl_reverse, foldr_bytesLE _ _ (Nat.le_refl _)]

/-- C9 (amended): CreditAccount runs exactly as one invoke with the command "credit" and
the arguments, in order, "address" with the 20 bytes of the address and "amount" with the
big-endian bytes of the absolute value of the amount; it returns nil exactly when that
invoke returns nil.  For an amount that is not negative, decoding the "amount" argument
as a big-endian integer gives the amount again, and two different amounts that are not
negative never give the same bytes. -/
theorem creditAccount_carries_nonnegative_amount (env : Env) (client : Client) (amount : Int)
    (address : EthAddress) (h : Heap) :
    client.CreditAccount env amount address h
      = client.invoke env "credit"
          [{ Name := "address", Value := address.Bytes },
           { Name := "amount", Value := bigIntBytes amount }] h ∧
    address.Bytes.length = 20 ∧
    bigIntSetBytes (bigIntBytes amount) = |amount| ∧
    ((client.CreditAccount env amount address h).res = .ok () ↔
      (client.invoke env "credit"
          [{ Name := "address", Value := address.Bytes },
           { Name := "amount", Value := bigIntBytes amount }] h).res = .ok ()) ∧
    (0 ≤ amount → bigIntSetBytes (bigIntBytes amount) = amount) ∧
    (∀ amount2 : Int, 0 ≤ amount → 0 ≤ amount2 →
      bigIntBytes amount = bigIntBytes amount2 → amount = amount2) := by
  have hrun : client.CreditAccount env amount address h
      = client.invoke env "credit"
          [{ Name := "address", Value := address.Bytes },
           { Name := "amount", Value := bigIntBytes amount }] h := by
    unfold Client.CreditAccount
    rw [prog_bind_apply]
    unfold Prog.bind
    rcases client.invoke env "credit"
          [{ Name := "address", Value := address.Bytes },
           { Name := "amount", Value := bigIntBytes amount }] h with ⟨t, h1, r⟩
    cases r <;> simp [prog_pure_apply]
  refine ⟨hrun, address.property, ?_, by rw [hrun], ?_, ?_⟩
  · rw [bigIntSetBytes_bigIntBytes, Int.abs_eq_natAbs]
  · intro hpos
    rw [bigIntSetBytes_bigIntBytes]
    exact Int.natAbs_of_nonneg hpos
  · intro amount2 hpos hpos2 heq
    have h1 := bigIntSetBytes_bigIntBytes amount
    have h2 := bigIntSetBytes_bigIntBytes amount2
    rw [heq, h2] at h1
    omega

/-- C9, at a sample input: crediting 1000 submits the bytes 3, 232, which decode to
1000. -/
theorem creditAccount_carries_nonnegative_amount_witness :
    bigIntBytes 1000 = [3, 232] ∧
    (cl0.CreditAccount okEnv 1000 addr0 h0).res = .ok () ∧
    bigIntSetBytes (bigIntBytes 1000) = 1000 :=
  ⟨by decide, by decide,
   (creditAccount_carries_nonnegative_amount okEnv cl0 1000 addr0 h0).2.2.2.2.1 (by decide)⟩

/-- C9, as first stated, fails for a negative amount: crediting -1 submits the same
events, with the same "amount" bytes, as crediting 1, and these bytes decode to 1. -/
theorem creditAccount_negative_amount_decodes_positive :
    bigIntBytes (-1) = [1] ∧
    bigIntSetBytes (bigIntBytes (-1)) ≠ -1 ∧
    (cl0.CreditAccount okEnv (-1) addr0 h0).trace
      = (cl0.invoke okEnv "credit"
          [{ Name := "address", Value := addr0.Bytes }, { Name := "amount", Value := [1] }]
          h0).trace ∧
    (cl0.CreditAccount okEnv (-1) addr0 h0).trace = (cl0.CreditAccount okEnv 1 addr0 h0).trace :=
  ⟨by decide, by decide, by decide, by decide⟩

end BEvm
